import Mathlib

/-!
Verification of the rollback state manager (`src/lib.rs` of Kethku/rollback).

Embedding choices:
* Frame indices are `usize` in the source; they are modelled as `Nat`
  (`checked_sub(..).unwrap_or(0)` is exactly truncated `Nat` subtraction).
* Participant identifiers (`Uuid`) are opaque values compared only for
  equality, modelled as `Nat`.
* `HashMap<usize, HashMap<Uuid, Input>>` is modelled as the curried lookup
  function `Nat → Nat → Option Input` (frame, then participant).  Each step
  of the source only reads, inserts, and per-id merges maps, operations whose
  per-key behaviour is exactly point-wise, so the function model is faithful:
  the `for (id, input) in current_frame_inputs.iter()` loop of
  `get_frame_inputs` inserts an id only when it is not yet present, hence the
  value obtained for each id does not depend on the unspecified iteration
  order of the `HashMap`.
* `handle_input` takes `&mut self` and returns `Result<()>`; it is modelled
  as a function returning the pair of the `Result` and the updated manager
  (on the error path the manager is returned unchanged, as the early
  `return Err` leaves `self` untouched).
-/

/-- The error enum `RollbackError` of `src/lib.rs`. -/
inductive RollbackError where
  | InputTooOld (input_frame : Nat) (oldest_valid_frame : Nat)
deriving DecidableEq

/-- The struct `RollbackStateManager<Input, State>` of `src/lib.rs`:
window size, the three frame cursors, the checkpoint (`stored_state`),
the cached current state, and the input ledger. -/
structure RollbackStateManager (Input State : Type) where
  max_history : Nat
  oldest_frame_index : Nat
  current_frame_index : Nat
  newest_frame_index : Nat
  stored_state : State
  current_frame_state : State
  recorded_inputs : Nat → Nat → Option Input

/-- The backwards scan of `get_frame_inputs`: starting at `frame` and taking
`count` steps downwards, return the first recorded input for `id` (the loop
`for previous_index in (oldest..index + 1).rev()` with the
`if !inputs.contains_key(id)` guard keeps, per id, exactly the entry of the
highest frame scanned so far). -/
def lookup_back {Input : Type} (rec : Nat → Nat → Option Input) :
    Nat → Nat → Nat → Option Input
  | _, 0, _ => none
  | frame, count + 1, id =>
    match rec frame id with
    | some v => some v
    | none => lookup_back rec (frame - 1) count id

/-- The loop of `compute_frame_state` and of the compaction branch of
`progress_frame`: fold `update` over `count` successive frames starting at
`start`, feeding each frame's resolved-inputs view to `update`. -/
def foldInputs {Input State : Type} (resolve : Nat → Nat → Option Input)
    (update : (Nat → Option Input) → State → State) :
    Nat → Nat → State → State
  | _, 0, s => s
  | start, count + 1, s =>
    foldInputs resolve update (start + 1) count (update (resolve start) s)

namespace RollbackStateManager

variable {Input State : Type}

/-- `RollbackStateManager::new` of `src/lib.rs`. -/
def new (initial_state : State) (max_rollback : Nat) :
    RollbackStateManager Input State where
  max_history := max_rollback
  oldest_frame_index := 0
  current_frame_index := 0
  newest_frame_index := 0
  stored_state := initial_state
  current_frame_state := initial_state
  recorded_inputs := fun _ _ => none

/-- `get_frame_inputs` of `src/lib.rs`: the resolved-inputs view at `index`,
scanning the `(oldest_frame_index..index + 1).rev()` range (the range has
`index + 1 - oldest_frame_index` elements, truncated at zero). -/
def get_frame_inputs (m : RollbackStateManager Input State) (index : Nat) :
    Nat → Option Input :=
  fun id =>
    lookup_back m.recorded_inputs index (index + 1 - m.oldest_frame_index) id

/-- `compute_frame_state` of `src/lib.rs`: clone the stored state and fold
`update` over the frames `oldest_frame_index .. index + 1`. -/
def compute_frame_state (m : RollbackStateManager Input State) (index : Nat)
    (update : (Nat → Option Input) → State → State) : State :=
  foldInputs m.get_frame_inputs update m.oldest_frame_index
    (index + 1 - m.oldest_frame_index) m.stored_state

/-- The compaction step inside `progress_frame` of `src/lib.rs` (lines
89-103): with `max_oldest_frame = current_frame_index.checked_sub(max_history)
.unwrap_or(0)`, if the recorded oldest frame is older, fold `update` over the
frames `oldest_frame_index + i` for `i in 0..max_oldest_frame -
oldest_frame_index`, insert the resolved-inputs view at `max_oldest_frame`
into the ledger, advance `oldest_frame_index`, and store the folded state.
All reads go through the pre-compaction manager, matching the source order
(the ledger insert happens before `oldest_frame_index` is reassigned). -/
def compact (m : RollbackStateManager Input State)
    (update : (Nat → Option Input) → State → State) :
    RollbackStateManager Input State :=
  let max_oldest_frame := m.current_frame_index - m.max_history
  if m.oldest_frame_index < max_oldest_frame then
    { m with
      recorded_inputs := fun f id =>
        if f = max_oldest_frame then m.get_frame_inputs max_oldest_frame id
        else m.recorded_inputs f id
      oldest_frame_index := max_oldest_frame
      stored_state := foldInputs m.get_frame_inputs update
        m.oldest_frame_index (max_oldest_frame - m.oldest_frame_index)
        m.stored_state }
  else m

/-- `progress_frame` of `src/lib.rs`: increment the current frame, run the
compaction step, then cache `compute_frame_state` at the new current frame. -/
def progress_frame (m : RollbackStateManager Input State)
    (update : (Nat → Option Input) → State → State) :
    RollbackStateManager Input State :=
  let stepped : RollbackStateManager Input State :=
    { m with current_frame_index := m.current_frame_index + 1 }
  let compacted := stepped.compact update
  { compacted with
    current_frame_state :=
      compacted.compute_frame_state compacted.current_frame_index update }

/-- `handle_input` of `src/lib.rs`: reject frames below `oldest_frame_index`
with `InputTooOld`, otherwise insert (or overwrite) the input for the
`(frame, id)` pair. -/
def handle_input (m : RollbackStateManager Input State) (frame : Nat)
    (id : Nat) (input : Input) :
    Except RollbackError Unit × RollbackStateManager Input State :=
  if frame < m.oldest_frame_index then
    (Except.error (RollbackError.InputTooOld frame m.oldest_frame_index), m)
  else
    (Except.ok (),
     { m with
       recorded_inputs := fun f i =>
         if f = frame then
           (if i = id then some input else m.recorded_inputs f i)
         else m.recorded_inputs f i })

end RollbackStateManager

/-- The manager states reachable from `new` by any sequence of
`progress_frame` (with arbitrary update functions) and `handle_input` calls
(`get_frame_inputs` takes `&self` and cannot change the state). -/
inductive Reachable {Input State : Type} :
    RollbackStateManager Input State → Prop where
  | new (s : State) (n : Nat) : Reachable (RollbackStateManager.new s n)
  | progress (m : RollbackStateManager Input State)
      (u : (Nat → Option Input) → State → State) :
      Reachable m → Reachable (m.progress_frame u)
  | input (m : RollbackStateManager Input State) (f id : Nat) (v : Input) :
      Reachable m → Reachable (m.handle_input f id v).2

/-- Spec-side fold, written from the spec's words: fold `update` over every
frame of the half-open interval `[lo, hi)` in increasing order, feeding the
resolved-inputs view of each frame.  Used to compare the loops of the code
(`foldInputs`) with the spec's description of compaction and replay. -/
def fold_frames_spec {Input State : Type} (resolve : Nat → Nat → Option Input)
    (update : (Nat → Option Input) → State → State) (lo hi : Nat)
    (s : State) : State :=
  (List.range' lo (hi - lo)).foldl (fun st f => update (resolve f) st) s

/-! ### Concrete scenarios (the recorded tests of `src/lib.rs`) -/

/-- The running-sum update of the tests, for the two participants `0` (P1)
and `1` (P2): add every present input to the state. -/
def sumUpdate2 : (Nat → Option Nat) → Nat → Nat :=
  fun inputs s => s + (inputs 0).getD 0 + (inputs 1).getD 0

/-- The running-sum update restricted to the single participant `0`. -/
def sumUpdate1 : (Nat → Option Nat) → Nat → Nat :=
  fun inputs s => s + (inputs 0).getD 0

/-- C6 setup: window 4, initial state 1, participant 0 submits input 1 at
frame 1 and participant 1 submits input 2 at frame 2 (and nothing else). -/
def exM : RollbackStateManager Nat Nat :=
  (((RollbackStateManager.new 1 4).handle_input 1 0 1).2.handle_input 2 1 2).2

def exS1 : RollbackStateManager Nat Nat := exM.progress_frame sumUpdate2

def exS2 : RollbackStateManager Nat Nat := exS1.progress_frame sumUpdate2

def exS3 : RollbackStateManager Nat Nat := exS2.progress_frame sumUpdate2

/-- C7 setup: window 3, initial state 0, participant 0 submits input 1 at
frame 1 and input 0 at frame 3. -/
def cmpM : RollbackStateManager Nat Nat :=
  (((RollbackStateManager.new 0 3).handle_input 1 0 1).2.handle_input 3 0 0).2

def cmpS1 : RollbackStateManager Nat Nat := cmpM.progress_frame sumUpdate1

def cmpS2 : RollbackStateManager Nat Nat := cmpS1.progress_frame sumUpdate1

def cmpS3 : RollbackStateManager Nat Nat := cmpS2.progress_frame sumUpdate1

def cmpS4 : RollbackStateManager Nat Nat := cmpS3.progress_frame sumUpdate1

def cmpS5 : RollbackStateManager Nat Nat := cmpS4.progress_frame sumUpdate1

def cmpS6 : RollbackStateManager Nat Nat := cmpS5.progress_frame sumUpdate1

/-- A small ledger for the resolved-inputs witnesses: participant 0 submits
input 5 at frame 1 and nothing else. -/
def wMGet : RollbackStateManager Nat Nat :=
  ((RollbackStateManager.new 0 4).handle_input 1 0 5).2

/-! ### Basic unfolding and field-preservation lemmas -/

variable {Input State : Type}

lemma lookup_back_one (rec : Nat → Nat → Option Input) (f id : Nat) :
    lookup_back rec f 1 id = rec f id := by
  simp only [lookup_back]
  cases rec f id <;> rfl

lemma foldInputs_eq_range' (res : Nat → Nat → Option Input)
    (u : (Nat → Option Input) → State → State) :
    ∀ (c lo : Nat) (s : State),
      foldInputs res u lo c s
        = (List.range' lo c).foldl (fun st f => u (res f) st) s := by
  intro c
  induction c with
  | zero => intro lo s; rfl
  | succ n ih =>
    intro lo s
    rw [List.range'_succ]
    simp only [List.foldl_cons, foldInputs]
    exact ih (lo + 1) (u (res lo) s)

lemma foldInputs_eq_spec (res : Nat → Nat → Option Input)
    (u : (Nat → Option Input) → State → State) (lo hi : Nat) (s : State) :
    foldInputs res u lo (hi - lo) s = fold_frames_spec res u lo hi s := by
  unfold fold_frames_spec
  exact foldInputs_eq_range' res u (hi - lo) lo s

lemma compute_frame_state_eq_spec (m : RollbackStateManager Input State)
    (idx : Nat) (u : (Nat → Option Input) → State → State) :
    m.compute_frame_state idx u
      = fold_frames_spec m.get_frame_inputs u m.oldest_frame_index (idx + 1)
          m.stored_state := by
  unfold RollbackStateManager.compute_frame_state
  exact foldInputs_eq_spec m.get_frame_inputs u m.oldest_frame_index (idx + 1)
    m.stored_state

lemma compact_current (m : RollbackStateManager Input State)
    (u : (Nat → Option Input) → State → State) :
    (m.compact u).current_frame_index = m.current_frame_index := by
  simp only [RollbackStateManager.compact]
  split <;> rfl

lemma compact_max_history (m : RollbackStateManager Input State)
    (u : (Nat → Option Input) → State → State) :
    (m.compact u).max_history = m.max_history := by
  simp only [RollbackStateManager.compact]
  split <;> rfl

lemma compact_newest (m : RollbackStateManager Input State)
    (u : (Nat → Option Input) → State → State) :
    (m.compact u).newest_frame_index = m.newest_frame_index := by
  simp only [RollbackStateManager.compact]
  split <;> rfl

lemma compact_oldest (m : RollbackStateManager Input State)
    (u : (Nat → Option Input) → State → State) :
    (m.compact u).oldest_frame_index
      = max m.oldest_frame_index (m.current_frame_index - m.max_history) := by
  simp only [RollbackStateManager.compact]
  split
  next h => show m.current_frame_index - m.max_history = _; omega
  next h => show m.oldest_frame_index = _; omega

lemma progress_frame_current (m : RollbackStateManager Input State)
    (u : (Nat → Option Input) → State → State) :
    (m.progress_frame u).current_frame_index = m.current_frame_index + 1 :=
  compact_current
    ({ m with current_frame_index := m.current_frame_index + 1 }) u

lemma progress_frame_max_history (m : RollbackStateManager Input State)
    (u : (Nat → Option Input) → State → State) :
    (m.progress_frame u).max_history = m.max_history :=
  compact_max_history
    ({ m with current_frame_index := m.current_frame_index + 1 }) u

lemma progress_frame_newest (m : RollbackStateManager Input State)
    (u : (Nat → Option Input) → State → State) :
    (m.progress_frame u).newest_frame_index = m.newest_frame_index :=
  compact_newest
    ({ m with current_frame_index := m.current_frame_index + 1 }) u

lemma progress_frame_oldest (m : RollbackStateManager Input State)
    (u : (Nat → Option Input) → State → State) :
    (m.progress_frame u).oldest_frame_index
      = max m.oldest_frame_index (m.current_frame_index + 1 - m.max_history) :=
  compact_oldest
    ({ m with current_frame_index := m.current_frame_index + 1 }) u

lemma handle_input_snd_fields (m : RollbackStateManager Input State)
    (f id : Nat) (v : Input) :
    (m.handle_input f id v).2.max_history = m.max_history ∧
    (m.handle_input f id v).2.oldest_frame_index = m.oldest_frame_index ∧
    (m.handle_input f id v).2.current_frame_index = m.current_frame_index ∧
    (m.handle_input f id v).2.newest_frame_index = m.newest_frame_index ∧
    (m.handle_input f id v).2.stored_state = m.stored_state ∧
    (m.handle_input f id v).2.current_frame_state = m.current_frame_state := by
  unfold RollbackStateManager.handle_input
  split <;> exact ⟨rfl, rfl, rfl, rfl, rfl, rfl⟩

/-- The key window invariant: in every reachable state the oldest retained
frame is exactly `current_frame_index - max_history` (truncated at zero). -/
lemma reachable_oldest_eq (m : RollbackStateManager Input State)
    (h : Reachable m) :
    m.oldest_frame_index = m.current_frame_index - m.max_history := by
  induction h with
  | new s n => show (0 : Nat) = 0 - n; omega
  | progress m u hm ih =>
    rw [progress_frame_oldest, progress_frame_current,
      progress_frame_max_history]
    omega
  | input m f id v hm ih =>
    have hf := handle_input_snd_fields m f id v
    rw [hf.2.1, hf.2.2.1, hf.1]
    exact ih

lemma compact_then (m : RollbackStateManager Input State)
    (u : (Nat → Option Input) → State → State)
    (h : m.oldest_frame_index < m.current_frame_index - m.max_history) :
    (m.compact u).oldest_frame_index
        = m.current_frame_index - m.max_history ∧
    (m.compact u).stored_state
        = foldInputs m.get_frame_inputs u m.oldest_frame_index
            (m.current_frame_index - m.max_history - m.oldest_frame_index)
            m.stored_state ∧
    (∀ id, (m.compact u).recorded_inputs
        (m.current_frame_index - m.max_history) id
      = m.get_frame_inputs (m.current_frame_index - m.max_history) id) ∧
    (∀ f id, f ≠ m.current_frame_index - m.max_history →
      (m.compact u).recorded_inputs f id = m.recorded_inputs f id) := by
  simp only [RollbackStateManager.compact]
  rw [if_pos h]
  refine ⟨rfl, rfl, fun id => by simp, fun f id hf => by simp [hf]⟩

lemma compact_else (m : RollbackStateManager Input State)
    (u : (Nat → Option Input) → State → State)
    (h : ¬ m.oldest_frame_index < m.current_frame_index - m.max_history) :
    m.compact u = m := by
  simp only [RollbackStateManager.compact]
  exact if_neg h

/-- C2: each `progress_frame` call first increments `current_frame_index`;
with `target_oldest = max(0, current_frame_index - max_history)` (truncated
`Nat` subtraction), if `target_oldest > oldest_frame_index` it folds the
update function over every frame in `[oldest_frame_index, target_oldest)`
starting from the checkpoint state and stores the result as the new
checkpoint, writes the resolved-inputs view at `target_oldest` into the
ledger at that frame, and sets `oldest_frame_index = target_oldest`;
otherwise checkpoint state and `oldest_frame_index` are unchanged. -/
theorem progress_frame_compaction_policy (m : RollbackStateManager Input State)
    (u : (Nat → Option Input) → State → State) :
    (m.progress_frame u).current_frame_index = m.current_frame_index + 1 ∧
    (m.oldest_frame_index < m.current_frame_index + 1 - m.max_history →
      (m.progress_frame u).stored_state
          = fold_frames_spec m.get_frame_inputs u m.oldest_frame_index
              (m.current_frame_index + 1 - m.max_history) m.stored_state ∧
      (∀ id, (m.progress_frame u).recorded_inputs
          (m.current_frame_index + 1 - m.max_history) id
        = m.get_frame_inputs (m.current_frame_index + 1 - m.max_history) id) ∧
      (∀ f id, f ≠ m.current_frame_index + 1 - m.max_history →
        (m.progress_frame u).recorded_inputs f id = m.recorded_inputs f id) ∧
      (m.progress_frame u).oldest_frame_index
          = m.current_frame_index + 1 - m.max_history) ∧
    (¬ m.oldest_frame_index < m.current_frame_index + 1 - m.max_history →
      (m.progress_frame u).stored_state = m.stored_state ∧
      (m.progress_frame u).oldest_frame_index = m.oldest_frame_index ∧
      (∀ f id, (m.progress_frame u).recorded_inputs f id
        = m.recorded_inputs f id)) := by
  refine ⟨progress_frame_current m u, fun hlt => ?_, fun hge => ?_⟩
  · obtain ⟨h1, h2, h3, h4⟩ := compact_then
      ({ m with current_frame_index := m.current_frame_index + 1 }) u hlt
    refine ⟨?_, h3, h4, h1⟩
    exact h2.trans (foldInputs_eq_spec m.get_frame_inputs u
      m.oldest_frame_index (m.current_frame_index + 1 - m.max_history)
      m.stored_state)
  · have he := compact_else
      ({ m with current_frame_index := m.current_frame_index + 1 }) u hge
    refine ⟨?_, ?_, fun f id => ?_⟩
    · show (({ m with current_frame_index := m.current_frame_index + 1 } :
        RollbackStateManager Input State).compact u).stored_state = _
      rw [he]
    · show (({ m with current_frame_index := m.current_frame_index + 1 } :
        RollbackStateManager Input State).compact u).oldest_frame_index = _
      rw [he]
    · show (({ m with current_frame_index := m.current_frame_index + 1 } :
        RollbackStateManager Input State).compact u).recorded_inputs f id = _
      rw [he]

/-- C3: after every `progress_frame(update)` call, `current_frame_index` is
its prior value plus one, and `current_frame_state` is the fold of `update`
starting from (a clone of) the checkpoint state over every frame from
`oldest_frame_index` through `current_frame_index` inclusive, using the
resolved-inputs view at each frame. -/
theorem progress_frame_recomputes_current_state
    (m : RollbackStateManager Input State)
    (u : (Nat → Option Input) → State → State) :
    (m.progress_frame u).current_frame_index = m.current_frame_index + 1 ∧
    (m.progress_frame u).current_frame_state
      = fold_frames_spec (m.progress_frame u).get_frame_inputs u
          (m.progress_frame u).oldest_frame_index
          ((m.progress_frame u).current_frame_index + 1)
          (m.progress_frame u).stored_state := by
  refine ⟨progress_frame_current m u, ?_⟩
  exact compute_frame_state_eq_spec
    (({ m with current_frame_index := m.current_frame_index + 1 } :
        RollbackStateManager Input State).compact u)
    (({ m with current_frame_index := m.current_frame_index + 1 } :
        RollbackStateManager Input State).compact u).current_frame_index u

/-- C4: `handle_input` succeeds, inserting or overwriting the input for the
`(frame, id)` pair and leaving every other ledger cell alone, exactly when
`frame ≥ oldest_frame_index`; for `frame < oldest_frame_index` it fails with
`InputTooOld` carrying the offending frame and `oldest_frame_index`. -/
theorem handle_input_ok_iff_in_window (m : RollbackStateManager Input State)
    (frame id : Nat) (v : Input) :
    (m.oldest_frame_index ≤ frame →
      (m.handle_input frame id v).1 = Except.ok () ∧
      (m.handle_input frame id v).2.recorded_inputs frame id = some v ∧
      (∀ f i, ¬(f = frame ∧ i = id) →
        (m.handle_input frame id v).2.recorded_inputs f i
          = m.recorded_inputs f i)) ∧
    (frame < m.oldest_frame_index →
      (m.handle_input frame id v).1
        = Except.error (RollbackError.InputTooOld frame
            m.oldest_frame_index)) := by
  unfold RollbackStateManager.handle_input
  constructor
  · intro hle
    rw [if_neg (by omega)]
    refine ⟨rfl, by simp, fun f i hfi => ?_⟩
    by_cases hf : f = frame
    · subst hf
      have hi : ¬ i = id := fun hi => hfi ⟨rfl, hi⟩
      simp [hi]
    · simp [hf]
  · intro hlt
    rw [if_pos hlt]

/-- Witness for C4 at a concrete manager and frame. -/
theorem handle_input_ok_iff_in_window_witness :
    ((RollbackStateManager.new 0 4 :
        RollbackStateManager Nat Nat).handle_input 2 0 7).1
      = Except.ok () :=
  ((handle_input_ok_iff_in_window (RollbackStateManager.new 0 4) 2 0 7).1
    (by decide)).1

/-- C10: `handle_input` mutates only the ledger: on success all other fields
of the manager are unchanged, and on an `InputTooOld` error the entire
manager, ledger included, is unchanged. -/
theorem handle_input_local_effect (m : RollbackStateManager Input State)
    (frame id : Nat) (v : Input) :
    (m.oldest_frame_index ≤ frame →
      (m.handle_input frame id v).2.max_history = m.max_history ∧
      (m.handle_input frame id v).2.oldest_frame_index
        = m.oldest_frame_index ∧
      (m.handle_input frame id v).2.current_frame_index
        = m.current_frame_index ∧
      (m.handle_input frame id v).2.newest_frame_index
        = m.newest_frame_index ∧
      (m.handle_input frame id v).2.stored_state = m.stored_state ∧
      (m.handle_input frame id v).2.current_frame_state
        = m.current_frame_state) ∧
    (frame < m.oldest_frame_index → (m.handle_input frame id v).2 = m) := by
  constructor
  · intro _
    exact handle_input_snd_fields m frame id v
  · intro hlt
    unfold RollbackStateManager.handle_input
    rw [if_pos hlt]

/-- Witness for C10 at a concrete manager whose window has already moved. -/
theorem handle_input_local_effect_witness :
    (({ max_history := 1, oldest_frame_index := 2, current_frame_index := 3,
        newest_frame_index := 0, stored_state := 0, current_frame_state := 0,
        recorded_inputs := fun _ _ => none } :
          RollbackStateManager Nat Nat).handle_input 1 0 3).2
      = { max_history := 1, oldest_frame_index := 2, current_frame_index := 3,
          newest_frame_index := 0, stored_state := 0, current_frame_state := 0,
          recorded_inputs := fun _ _ => none } :=
  (handle_input_local_effect
    ({ max_history := 1, oldest_frame_index := 2, current_frame_index := 3,
       newest_frame_index := 0, stored_state := 0, current_frame_state := 0,
       recorded_inputs := fun _ _ => none }) 1 0 3).2 (by decide)

/-- C9: no operation ever modifies `newest_frame_index`: in every reachable
manager state it still equals its initial value `0`. -/
theorem newest_frame_index_constant (m : RollbackStateManager Input State)
    (h : Reachable m) : m.newest_frame_index = 0 := by
  induction h with
  | new s n => rfl
  | progress m u hm ih => rw [progress_frame_newest]; exact ih
  | input m f id v hm ih => rw [(handle_input_snd_fields m f id v).2.2.2.1]; exact ih

/-- Witness for C9 at a concrete reachable state. -/
theorem newest_frame_index_constant_witness :
    (RollbackStateManager.progress_frame
      (RollbackStateManager.new 5 2 : RollbackStateManager Nat Nat)
      (fun _ s => s)).newest_frame_index = 0 :=
  newest_frame_index_constant _
    (Reachable.progress _ _ (Reachable.new 5 2))

/-- C5: in every reachable state `oldest_frame_index ≤ current_frame_index`,
and after every further `progress_frame` call the retained window
`current_frame_index - oldest_frame_index` is at most `max_history`, with
equality whenever `current_frame_index ≥ max_history`. -/
theorem window_invariant_reachable (m : RollbackStateManager Input State)
    (h : Reachable m) :
    m.oldest_frame_index ≤ m.current_frame_index ∧
    ∀ u, (m.progress_frame u).current_frame_index
           - (m.progress_frame u).oldest_frame_index ≤ m.max_history ∧
      (m.max_history ≤ (m.progress_frame u).current_frame_index →
        (m.progress_frame u).current_frame_index
          - (m.progress_frame u).oldest_frame_index = m.max_history) := by
  have h1 := reachable_oldest_eq m h
  refine ⟨by omega, fun u => ?_⟩
  have h2 := reachable_oldest_eq _ (Reachable.progress m u h)
  rw [progress_frame_current, progress_frame_max_history] at h2
  rw [progress_frame_current, h2]
  omega

/-- Witness for C5 at a concrete reachable state. -/
theorem window_invariant_reachable_witness :
    (RollbackStateManager.new 0 3 :
        RollbackStateManager Nat Nat).oldest_frame_index
      ≤ (RollbackStateManager.new 0 3 :
        RollbackStateManager Nat Nat).current_frame_index :=
  (window_invariant_reachable _ (Reachable.new 0 3)).1

/-! ### Characterisation of the backwards input scan -/

lemma lookup_back_succ_some (rec : Nat → Nat → Option Input) (f c id : Nat)
    (v : Input) (h : rec f id = some v) :
    lookup_back rec f (c + 1) id = some v := by
  simp only [lookup_back, h]

lemma lookup_back_succ_none (rec : Nat → Nat → Option Input) (f c id : Nat)
    (h : rec f id = none) :
    lookup_back rec f (c + 1) id = lookup_back rec (f - 1) c id := by
  simp only [lookup_back, h]

lemma lookup_back_none_iff (rec : Nat → Nat → Option Input) (lo : Nat) :
    ∀ (d id : Nat), lookup_back rec (lo + d) (d + 1) id = none ↔
      ∀ a, lo ≤ a → a ≤ lo + d → rec a id = none := by
  intro d
  induction d with
  | zero =>
    intro id
    simp only [Nat.add_zero, Nat.zero_add]
    rw [lookup_back_one]
    constructor
    · intro hn a h1 h2
      have ha : a = lo := by omega
      rw [ha]
      exact hn
    · intro hall
      exact hall lo (Nat.le_refl lo) (Nat.le_refl lo)
  | succ n ih =>
    intro id
    cases hrec : rec (lo + (n + 1)) id with
    | some w =>
      rw [lookup_back_succ_some rec _ _ _ w hrec]
      constructor
      · intro h
        exact Option.noConfusion h
      · intro hall
        rw [hall (lo + (n + 1)) (by omega) (by omega)] at hrec
        exact Option.noConfusion hrec
    | none =>
      rw [lookup_back_succ_none rec _ _ _ hrec]
      have he : lo + (n + 1) - 1 = lo + n := by omega
      rw [he, ih id]
      constructor
      · intro hall a h1 h2
        by_cases ha : a = lo + (n + 1)
        · rw [ha]
          exact hrec
        · exact hall a h1 (by omega)
      · intro hall a h1 h2
        exact hall a h1 (by omega)

lemma lookup_back_some_iff (rec : Nat → Nat → Option Input) (lo : Nat) :
    ∀ (d id : Nat) (v : Input),
      lookup_back rec (lo + d) (d + 1) id = some v ↔
      ∃ a, lo ≤ a ∧ a ≤ lo + d ∧ rec a id = some v ∧
        ∀ b, a < b → b ≤ lo + d → rec b id = none := by
  intro d
  induction d with
  | zero =>
    intro id v
    simp only [Nat.add_zero]
    rw [lookup_back_one]
    constructor
    · intro h
      exact ⟨lo, Nat.le_refl lo, Nat.le_refl lo, h,
        fun b hb1 hb2 => absurd hb1 (by omega)⟩
    · rintro ⟨a, h1, h2, h3, h4⟩
      have ha : a = lo := by omega
      rw [ha] at h3
      exact h3
  | succ n ih =>
    intro id v
    cases hrec : rec (lo + (n + 1)) id with
    | some w =>
      rw [lookup_back_succ_some rec _ _ _ w hrec]
      constructor
      · intro h
        refine ⟨lo + (n + 1), by omega, by omega, ?_,
          fun b hb1 hb2 => absurd hb1 (by omega)⟩
        rw [hrec]
        exact h
      · rintro ⟨a, h1, h2, h3, h4⟩
        by_cases ha : a = lo + (n + 1)
        · rw [ha, hrec] at h3
          exact h3
        · have hb := h4 (lo + (n + 1)) (by omega) (by omega)
          rw [hrec] at hb
          exact Option.noConfusion hb
    | none =>
      rw [lookup_back_succ_none rec _ _ _ hrec]
      have he : lo + (n + 1) - 1 = lo + n := by omega
      rw [he, ih id v]
      constructor
      · rintro ⟨a, h1, h2, h3, h4⟩
        refine ⟨a, h1, by omega, h3, fun b hb1 hb2 => ?_⟩
        by_cases hbb : b = lo + (n + 1)
        · rw [hbb]
          exact hrec
        · exact h4 b hb1 (by omega)
      · rintro ⟨a, h1, h2, h3, h4⟩
        have ha : ¬ a = lo + (n + 1) := by
          intro hh
          rw [hh, hrec] at h3
          exact Option.noConfusion h3
        exact ⟨a, h1, by omega, h3, fun b hb1 hb2 => h4 b hb1 (by omega)⟩

/-- C1: for every frame `f ≥ oldest_frame_index`, the resolved-inputs view
maps each participant to their most recent submission at a frame in
`[oldest_frame_index, f]` (hold-last-known-input prediction), and omits
every participant with no submission in that range. -/
theorem get_frame_inputs_holds_last_known
    (m : RollbackStateManager Input State) (f id : Nat)
    (h : m.oldest_frame_index ≤ f) :
    (∀ v, m.get_frame_inputs f id = some v ↔
       ∃ a, m.oldest_frame_index ≤ a ∧ a ≤ f ∧
         m.recorded_inputs a id = some v ∧
         ∀ b, a < b → b ≤ f → m.recorded_inputs b id = none) ∧
    (m.get_frame_inputs f id = none ↔
       ∀ a, m.oldest_frame_index ≤ a → a ≤ f →
         m.recorded_inputs a id = none) := by
  obtain ⟨d, rfl⟩ : ∃ d, f = m.oldest_frame_index + d :=
    ⟨f - m.oldest_frame_index, by omega⟩
  have e : m.get_frame_inputs (m.oldest_frame_index + d) id
      = lookup_back m.recorded_inputs (m.oldest_frame_index + d) (d + 1) id := by
    simp only [RollbackStateManager.get_frame_inputs]
    have hc : m.oldest_frame_index + d + 1 - m.oldest_frame_index = d + 1 := by
      omega
    rw [hc]
  rw [e]
  exact ⟨fun v =>
    lookup_back_some_iff m.recorded_inputs m.oldest_frame_index d id v,
    lookup_back_none_iff m.recorded_inputs m.oldest_frame_index d id⟩

/-- Witness for C1: with a single submission of input 5 at frame 1 by
participant 0, the resolved view at frame 2 still holds that input. -/
theorem get_frame_inputs_holds_last_known_witness :
    wMGet.get_frame_inputs 2 0 = some 5 :=
  ((get_frame_inputs_holds_last_known wMGet 2 0 (by decide)).1 5).mpr
    ⟨1, by decide, by decide, by decide, fun b hb1 hb2 => by
      have hb : b = 2 := by omega
      rw [hb]
      decide⟩

/-! ### Prediction survives compaction -/

lemma lookup_back_overwrite (rec : Nat → Nat → Option Input) (lo t : Nat)
    (hlo : lo ≤ t) :
    ∀ (d id : Nat),
      lookup_back (fun f i =>
          if f = t then lookup_back rec t (t + 1 - lo) i else rec f i)
        (t + d) (d + 1) id
      = lookup_back rec (t + d) (t + d + 1 - lo) id := by
  intro d
  induction d with
  | zero =>
    intro id
    show lookup_back (fun f i =>
        if f = t then lookup_back rec t (t + 1 - lo) i else rec f i)
      t 1 id = lookup_back rec t (t + 1 - lo) id
    rw [lookup_back_one]
    exact if_pos rfl
  | succ n ih =>
    intro id
    have hne : ¬ t + (n + 1) = t := by omega
    have hr : (fun f i =>
        if f = t then lookup_back rec t (t + 1 - lo) i else rec f i)
          (t + (n + 1)) id = rec (t + (n + 1)) id := by
      simp only [if_neg hne]
    cases hrec : rec (t + (n + 1)) id with
    | some w =>
      rw [lookup_back_succ_some _ _ (n + 1) id w (hr.trans hrec)]
      have hc : t + (n + 1) + 1 - lo = (t + n + 1 - lo) + 1 := by omega
      rw [hc, lookup_back_succ_some rec _ _ id w hrec]
    | none =>
      rw [lookup_back_succ_none _ _ (n + 1) id (hr.trans hrec)]
      have hc : t + (n + 1) + 1 - lo = (t + n + 1 - lo) + 1 := by omega
      rw [hc, lookup_back_succ_none rec _ _ id hrec]
      have he : t + (n + 1) - 1 = t + n := by omega
      rw [he]
      exact ih id

lemma compact_get_frame_inputs (m : RollbackStateManager Input State)
    (u : (Nat → Option Input) → State → State) (f id : Nat)
    (h : (m.compact u).oldest_frame_index ≤ f) :
    (m.compact u).get_frame_inputs f id = m.get_frame_inputs f id := by
  by_cases hc : m.oldest_frame_index < m.current_frame_index - m.max_history
  · obtain ⟨h1, h2, h3, h4⟩ := compact_then m u hc
    rw [h1] at h
    obtain ⟨d, rfl⟩ :
        ∃ d, f = m.current_frame_index - m.max_history + d :=
      ⟨f - (m.current_frame_index - m.max_history), by omega⟩
    have hrec_eq : (m.compact u).recorded_inputs = fun f i =>
        if f = m.current_frame_index - m.max_history then
          m.get_frame_inputs (m.current_frame_index - m.max_history) i
        else m.recorded_inputs f i := by
      funext f i
      by_cases hf : f = m.current_frame_index - m.max_history
      · rw [hf, if_pos rfl]
        exact h3 i
      · rw [if_neg hf]
        exact h4 f i hf
    simp only [RollbackStateManager.get_frame_inputs]
    rw [hrec_eq, h1]
    have hc1 : m.current_frame_index - m.max_history + d + 1
        - (m.current_frame_index - m.max_history) = d + 1 := by omega
    rw [hc1]
    exact lookup_back_overwrite m.recorded_inputs m.oldest_frame_index
      (m.current_frame_index - m.max_history) (by omega) d id
  · rw [compact_else m u hc]

lemma compact_recorded_at_oldest (m : RollbackStateManager Input State)
    (u : (Nat → Option Input) → State → State) (id : Nat) :
    (m.compact u).recorded_inputs (m.compact u).oldest_frame_index id
      = m.get_frame_inputs (m.compact u).oldest_frame_index id := by
  by_cases hc : m.oldest_frame_index < m.current_frame_index - m.max_history
  · obtain ⟨h1, h2, h3, h4⟩ := compact_then m u hc
    rw [h1]
    exact h3 id
  · rw [compact_else m u hc]
    simp only [RollbackStateManager.get_frame_inputs]
    have hc1 : m.oldest_frame_index + 1 - m.oldest_frame_index = 1 := by omega
    rw [hc1, lookup_back_one]

/-- C8: held predictions survive compaction.  Whatever `progress_frame` does
to the window, the resolved-inputs view at any frame at or after the new
`oldest_frame_index` is unchanged, and the ledger entry at the new
`oldest_frame_index` holds exactly the pre-call resolved view there (the held
input of every participant whose last submission fell behind the window). -/
theorem prediction_survives_compaction (m : RollbackStateManager Input State)
    (u : (Nat → Option Input) → State → State) (f id : Nat)
    (h : (m.progress_frame u).oldest_frame_index ≤ f) :
    (m.progress_frame u).get_frame_inputs f id = m.get_frame_inputs f id ∧
    (m.progress_frame u).recorded_inputs
        (m.progress_frame u).oldest_frame_index id
      = m.get_frame_inputs (m.progress_frame u).oldest_frame_index id := by
  constructor
  · exact compact_get_frame_inputs
      ({ m with current_frame_index := m.current_frame_index + 1 }) u f id h
  · exact compact_recorded_at_oldest
      ({ m with current_frame_index := m.current_frame_index + 1 }) u id

/-- Witness for C8: the fourth tick of the compaction scenario moves
`oldest_frame_index` from 0 to 1, yet participant 0's held input at frame 1
resolves as before. -/
theorem prediction_survives_compaction_witness :
    (cmpS3.progress_frame sumUpdate1).get_frame_inputs 1 0
      = cmpS3.get_frame_inputs 1 0 :=
  (prediction_survives_compaction cmpS3 sumUpdate1 1 0 (by decide)).1

/-! ### The two recorded scenarios -/

/-- C6 counterexample: with window 4, initial state 1, the running-sum
update, and only the submissions input 1 at frame 1 (participant 0) and
input 2 at frame 2 (participant 1), the third `progress_frame` call yields
current state 8 — not 5 as the claim states (the recorded test additionally
submits input 0 at frame 3 for both participants). -/
theorem rollback_example_third_state_is_eight :
    exS3.current_frame_index = 3 ∧ exS3.current_frame_state = 8 ∧
    ¬ exS3.current_frame_state = 5 := by decide

/-- C6 amended: with exactly the stated submissions, the three successive
`progress_frame` calls yield `current_frame_state` values 2, 5, 8 at
`current_frame_index` 1, 2, 3 respectively. -/
theorem rollback_example_state_sequence :
    exS1.current_frame_index = 1 ∧ exS1.current_frame_state = 2 ∧
    exS2.current_frame_index = 2 ∧ exS2.current_frame_state = 5 ∧
    exS3.current_frame_index = 3 ∧ exS3.current_frame_state = 8 := by decide

/-- C7 counterexample: in the compaction scenario (window 3, initial state 0,
input 1 at frame 1 and input 0 at frame 3) the second `progress_frame` call
already yields current state 2, so the state does not stabilize at 1 from
frame 1 onward. -/
theorem compaction_example_second_state_is_two :
    cmpS2.current_frame_index = 2 ∧ cmpS2.current_frame_state = 2 ∧
    ¬ cmpS2.current_frame_state = 1 := by decide

/-- C7 amended: six successive `progress_frame` calls produce the
`oldest_frame_index` sequence 0, 0, 0, 1, 2, 3, and `current_frame_state` is
1 at frame 1 and stabilizes at 2 from frame 2 onward. -/
theorem compaction_example_progression :
    cmpS1.current_frame_index = 1 ∧ cmpS6.current_frame_index = 6 ∧
    cmpS1.oldest_frame_index = 0 ∧ cmpS2.oldest_frame_index = 0 ∧
    cmpS3.oldest_frame_index = 0 ∧ cmpS4.oldest_frame_index = 1 ∧
    cmpS5.oldest_frame_index = 2 ∧ cmpS6.oldest_frame_index = 3 ∧
    cmpS1.current_frame_state = 1 ∧ cmpS2.current_frame_state = 2 ∧
    cmpS3.current_frame_state = 2 ∧ cmpS4.current_frame_state = 2 ∧
    cmpS5.current_frame_state = 2 ∧ cmpS6.current_frame_state = 2 := by decide

/-- Witness for C2: on the fourth tick of the compaction scenario the target
oldest frame (1) is ahead of the recorded oldest frame (0), so compaction
advances `oldest_frame_index` to it. -/
theorem progress_frame_compaction_policy_witness :
    (cmpS3.progress_frame sumUpdate1).oldest_frame_index = 1 :=
  ((progress_frame_compaction_policy cmpS3 sumUpdate1).2.1 (by decide)).2.2.2
